import Mathlib

/-!
Verification of the file-system system-call layer (`sysfile.c`) of a
Unix-like teaching kernel.

The syscall handlers (`sys_link`, `sys_unlink`, `create`, `sys_open`,
`sys_mkdir`, `sys_mknod`, `sys_symlink`, `sys_readlink`, tag operations)
are translated from the source into pure Lean functions over an explicit
filesystem state `FS`.  External collaborators that are not part of the
shown source (path resolution, the inode allocator, the directory-entry
store, the transaction engine) are modelled from their interface
specification; each such definition is marked `Modelled from the spec:`.

Stateful behaviour is explicit state passing; every handler additionally
returns the ordered list of events it performs (lock/unlock/release,
begin/commit of the transaction, directory writes), so that claims about
bracketing and ordering of side effects can be stated directly.  A call
to `panic` in the C source is modelled as the result `SysRes.panicked`
with the panic message; machine `int` values are modelled as `Int`.
Byte offsets into directory content are counted in dirent-sized units.
-/

namespace SysFile

/-- Inode kinds from `stat.h`: directory, plain file, device. -/
inductive IType where
  | T_DIR
  | T_FILE
  | T_DEV
deriving DecidableEq, Repr

/-- A directory entry (`struct dirent`): a bounded name and an inode
number; inode number 0 marks a free/deleted slot. -/
structure Dirent where
  name : String
  inum : Nat
deriving DecidableEq, Repr

/-- An in-memory inode (`struct inode`), restricted to the fields
`sysfile.c` reads or writes.  `addrs` is the block-address area, reused
as the inline NUL-terminated symlink target when `symlnk` (the
`I_SYMLNK` bit of `flags`) is set.  `data` is the dirent content of a
directory inode, accessed through `readi`/`writei` in dirent-sized
units; `size` is its length in the same units. -/
structure Inode where
  dev : Nat
  inum : Nat
  type : IType
  nlink : Int
  size : Nat
  major : Int
  minor : Int
  symlnk : Bool
  addrs : String
  data : List Dirent
deriving DecidableEq, Repr

/-- The filesystem state visible to this layer.  `inodes` is the inode
store (`iget` never fails in the source, so the store is total);
`resolve` and `resolveParent` are the states of the external path
resolver (`namei` / `nameiparent`); `nextInum` is the external inode
allocator's next fresh inode number. -/
structure FS where
  inodes : Nat → Inode
  resolve : String → Option Nat
  resolveParent : String → Option (Nat × String)
  nextInum : Nat

/-- Point update of the inode store (the effect of writing through an
inode pointer followed by `iupdate`). -/
def FS.setInode (fs : FS) (n : Nat) (ip : Inode) : FS :=
  { fs with inodes := fun m => if m = n then ip else fs.inodes m }

/-- Modelled from the spec: resolution reflects directory contents —
after `insert_entry` binds a path's final component to an inode,
`resolve_path` on that path returns it. -/
def FS.setResolve (fs : FS) (path : String) (n : Nat) : FS :=
  { fs with resolve := fun q => if q = path then some n else fs.resolve q }

/-- Side effects a handler performs, in order: argument fetching,
transaction begin/commit, inode lock/unlock/refcount-release, inode
persistence (`iupdate`), directory-entry writes, and the symlink-target
store of `sys_symlink`. -/
inductive Ev where
  | argfetch
  | tbegin
  | tcommit
  | ilockE (n : Nat)
  | iunlockE (n : Nat)
  | iputE (n : Nat)
  | iupdateE (n : Nat)
  | dirwriteE (dir : Nat) (name : String) (inum : Nat)
  | setsymE (n : Nat)
deriving DecidableEq, Repr

/-- Result of a syscall handler: a returned integer, or a kernel
`panic` (the system halts; no value is returned). -/
inductive SysRes where
  | ret (n : Int)
  | panicked (msg : String)
deriving DecidableEq, Repr

/-- Kind tag of an open-file object (`struct file`). -/
inductive FType where
  | FD_INODE
  | FD_SYMLNK
deriving DecidableEq, Repr

/-- An open-file object: kind, owned inode number, cursor, access
flags. -/
structure OFile where
  ftype : FType
  ip : Nat
  off : Nat
  readable : Bool
  writable : Bool
deriving DecidableEq, Repr

/-- `fcntl.h` open modes. -/
def O_RDONLY : Nat := 0

def O_WRONLY : Nat := 1

def O_RDWR : Nat := 2

def O_CREATE : Nat := 512

/-- Modelled from the spec: the fixed capacity `MAX_LNK_NAME` of the
inline symlink-target buffer (`param.h` is not part of the shown
source; the spec only requires a fixed bound on the NUL-terminated
inline string). -/
def MAX_LNK_NAME : Nat := 32

/-- C string length. -/
def strlen (s : String) : Nat := s.data.length

/-- First `n` characters of a string. -/
def strTake (s : String) (n : Nat) : String := String.mk (s.data.take n)

/-- `safestrcpy(dst, src, n)`: copies at most `n - 1` characters of
`src` and NUL-terminates; with `n = 0` the destination is untouched. -/
def safestrcpy (dst src : String) (n : Nat) : String :=
  if n = 0 then dst else strTake src (n - 1)

/-- Modelled from the spec: `resolve_path(path) -> inode | none`
(`namei`). -/
def namei (fs : FS) (path : String) : Option Nat := fs.resolve path

/-- Modelled from the spec: `resolve_parent(path) -> (parent inode,
final component name) | none` (`nameiparent`). -/
def nameiparent (fs : FS) (path : String) : Option (Nat × String) :=
  fs.resolveParent path

/-- Scan of a directory's entries, skipping free slots, returning the
inode number and the dirent offset of a name match. -/
def dirlookupAux (name : String) : List Dirent → Nat → Option (Nat × Nat)
  | [], _ => none
  | de :: rest, off =>
      if de.inum ≠ 0 ∧ de.name = name then some (de.inum, off)
      else dirlookupAux name rest (off + 1)

/-- Modelled from the spec: `lookup_entry(dir_inode, name) -> (inode,
offset) | none` (`dirlookup`); an inode number of 0 marks a free slot. -/
def dirlookup (dp : Inode) (name : String) : Option (Nat × Nat) :=
  dirlookupAux name dp.data 0

/-- Write a fresh entry into the first free slot, or extend the
directory; entries are never compacted. -/
def writeFree : List Dirent → Dirent → List Dirent
  | [], de => [de]
  | d :: rest, de => if d.inum = 0 then de :: rest else d :: writeFree rest de

/-- Modelled from the spec: `insert_entry(dir_inode, name,
inode_number) -> success | failure` (`dirlink`); fails when the name is
already present, otherwise the entry goes into the first free slot or
extends the directory. -/
def dirlink (dp : Inode) (name : String) (inum : Nat) : Option Inode :=
  if (dirlookup dp name).isSome then none
  else
    let d := writeFree dp.data ⟨name, inum⟩
    some { dp with data := d, size := d.length }

/-- Modelled from the spec: `allocate_inode(device, kind) -> inode`
(`ialloc`); allocates a fresh inode number holding a blank inode of the
given kind on the given device. -/
def ialloc (fs : FS) (dev : Nat) (ty : IType) : Nat × FS :=
  let n := fs.nextInum
  (n, { fs with
        nextInum := n + 1
        inodes := fun m =>
          if m = n then ⟨dev, n, ty, 0, 0, 0, 0, false, "", []⟩
          else fs.inodes m })

/-- Result of the internal `create` helper: the (still locked) new or
existing inode's number, a null return, or a `panic`. -/
inductive CreateRes where
  | ok (ipn : Nat)
  | fail
  | panicked (msg : String)
deriving DecidableEq, Repr

/-- `create(path, type, major, minor)` from the source: resolve the
parent; if the final name already exists return it only when both the
request and the entry are plain files; otherwise allocate a fresh
inode, bootstrap `.` and `..` for directories (bumping the parent's
link count for `..`, with no self-count for `.`), and link the name
into the parent.  Failures of the bootstrap writes are kernel panics. -/
def create (fs : FS) (path : String) (ty : IType) (major minor : Int) :
    CreateRes × FS × List Ev :=
  match nameiparent fs path with
  | none => (.fail, fs, [])
  | some (dpn, name) =>
    let dp := fs.inodes dpn
    match dirlookup dp name with
    | some (ipn, _) =>
      let ip := fs.inodes ipn
      if ty = IType.T_FILE ∧ ip.type = IType.T_FILE then
        (.ok ipn, fs, [.ilockE dpn, .iunlockE dpn, .iputE dpn, .ilockE ipn])
      else
        (.fail, fs,
          [.ilockE dpn, .iunlockE dpn, .iputE dpn, .ilockE ipn,
           .iunlockE ipn, .iputE ipn])
    | none =>
      let al := ialloc fs dp.dev ty
      let ipn := al.1
      let fs1 := al.2
      let ip1 := { fs1.inodes ipn with major := major, minor := minor, nlink := 1 }
      let fs2 := fs1.setInode ipn ip1
      let evs0 := [Ev.ilockE dpn, Ev.ilockE ipn, Ev.iupdateE ipn]
      if ty = IType.T_DIR then
        let dp1 := { fs2.inodes dpn with nlink := (fs2.inodes dpn).nlink + 1 }
        let fs3 := fs2.setInode dpn dp1
        match dirlink (fs3.inodes ipn) "." ipn with
        | none => (.panicked "create dots", fs3, evs0 ++ [Ev.iupdateE dpn])
        | some ipd =>
          let fs4 := fs3.setInode ipn ipd
          match dirlink (fs4.inodes ipn) ".." dpn with
          | none =>
            (.panicked "create dots", fs4,
              evs0 ++ [Ev.iupdateE dpn, Ev.dirwriteE ipn "." ipn])
          | some ipd2 =>
            let fs5 := fs4.setInode ipn ipd2
            match dirlink (fs5.inodes dpn) name ipn with
            | none =>
              (.panicked "create: dirlink", fs5,
                evs0 ++ [Ev.iupdateE dpn, Ev.dirwriteE ipn "." ipn,
                         Ev.dirwriteE ipn ".." dpn])
            | some dp2 =>
              let fs6 := (fs5.setInode dpn dp2).setResolve path ipn
              (.ok ipn, fs6,
                evs0 ++ [Ev.iupdateE dpn, Ev.dirwriteE ipn "." ipn,
                         Ev.dirwriteE ipn ".." dpn, Ev.dirwriteE dpn name ipn,
                         Ev.iunlockE dpn, Ev.iputE dpn])
      else
        match dirlink (fs2.inodes dpn) name ipn with
        | none => (.panicked "create: dirlink", fs2, evs0)
        | some dp2 =>
          let fs3 := (fs2.setInode dpn dp2).setResolve path ipn
          (.ok ipn, fs3,
            evs0 ++ [Ev.dirwriteE dpn name ipn, Ev.iunlockE dpn, Ev.iputE dpn])

/-- `sys_link`: link `newp` to the inode of `oldp`.  Directories are
rejected; the link count is bumped optimistically and compensated on
the `bad` path (parent lookup failure, cross-device, or `dirlink`
failure), all inside one transaction.  `argok` models whether the
user-argument fetches succeed. -/
def sys_link (argok : Bool) (oldp newp : String) (fs : FS) :
    SysRes × FS × List Ev :=
  if argok = false then (.ret (-1), fs, [.argfetch])
  else
    match namei fs oldp with
    | none => (.ret (-1), fs, [.argfetch])
    | some ipn =>
      let ip := fs.inodes ipn
      if ip.type = IType.T_DIR then
        (.ret (-1), fs,
          [.argfetch, .tbegin, .ilockE ipn, .iunlockE ipn, .iputE ipn, .tcommit])
      else
        let fs1 := fs.setInode ipn { ip with nlink := ip.nlink + 1 }
        let evs1 := [Ev.argfetch, Ev.tbegin, Ev.ilockE ipn, Ev.iupdateE ipn,
                     Ev.iunlockE ipn]
        match nameiparent fs1 newp with
        | none =>
          let ipb := fs1.inodes ipn
          (.ret (-1), fs1.setInode ipn { ipb with nlink := ipb.nlink - 1 },
            evs1 ++ [Ev.ilockE ipn, Ev.iupdateE ipn, Ev.iunlockE ipn,
                     Ev.iputE ipn, Ev.tcommit])
        | some (dpn, name) =>
          let dp := fs1.inodes dpn
          if dp.dev ≠ ip.dev then
            let ipb := fs1.inodes ipn
            (.ret (-1), fs1.setInode ipn { ipb with nlink := ipb.nlink - 1 },
              evs1 ++ [Ev.ilockE dpn, Ev.iunlockE dpn, Ev.iputE dpn,
                       Ev.ilockE ipn, Ev.iupdateE ipn, Ev.iunlockE ipn,
                       Ev.iputE ipn, Ev.tcommit])
          else
            match dirlink dp name ipn with
            | none =>
              let ipb := fs1.inodes ipn
              (.ret (-1), fs1.setInode ipn { ipb with nlink := ipb.nlink - 1 },
                evs1 ++ [Ev.ilockE dpn, Ev.iunlockE dpn, Ev.iputE dpn,
                         Ev.ilockE ipn, Ev.iupdateE ipn, Ev.iunlockE ipn,
                         Ev.iputE ipn, Ev.tcommit])
            | some dp2 =>
              (.ret 0, fs1.setInode dpn dp2,
                evs1 ++ [Ev.ilockE dpn, Ev.dirwriteE dpn name ipn,
                         Ev.iunlockE dpn, Ev.iputE dpn, Ev.iputE ipn,
                         Ev.tcommit])

/-- The scan of `isdirempty` over a list of dirent offsets: `none`
models the `panic("isdirempty: readi")` on a failed read, `some false`
a non-free entry. -/
def isdiremptyList (dp : Inode) : List Nat → Option Bool
  | [] => some true
  | off :: rest =>
    match dp.data.get? off with
    | none => none
    | some de => if de.inum ≠ 0 then some false else isdiremptyList dp rest

/-- `isdirempty`: is the directory empty apart from the two reserved
slots `.` and `..`?  The scanned offsets `[2, ..., size - 1]` are
exactly those of the source's loop. -/
def isdirempty (dp : Inode) : Option Bool :=
  isdiremptyList dp (List.range' 2 (dp.size - 2))

/-- `sys_unlink`: remove the entry `path` from its parent.  `.` and
`..` are rejected, a non-empty directory target is rejected, the entry
slot is zeroed (no compaction), the parent loses its `..` back-count
for a directory target, and the target loses one link; all inside one
transaction. -/
def sys_unlink (argok : Bool) (path : String) (fs : FS) :
    SysRes × FS × List Ev :=
  if argok = false then (.ret (-1), fs, [.argfetch])
  else
    match nameiparent fs path with
    | none => (.ret (-1), fs, [.argfetch])
    | some (dpn, name) =>
      let dp := fs.inodes dpn
      let evs0 := [Ev.argfetch, Ev.tbegin, Ev.ilockE dpn]
      if name = "." ∨ name = ".." then
        (.ret (-1), fs, evs0 ++ [Ev.iunlockE dpn, Ev.iputE dpn, Ev.tcommit])
      else
        match dirlookup dp name with
        | none =>
          (.ret (-1), fs, evs0 ++ [Ev.iunlockE dpn, Ev.iputE dpn, Ev.tcommit])
        | some (ipn, off) =>
          let ip := fs.inodes ipn
          let evs1 := evs0 ++ [Ev.ilockE ipn]
          if ip.nlink < 1 then (.panicked "unlink: nlink < 1", fs, evs1)
          else
            match (if ip.type = IType.T_DIR then isdirempty ip else some true) with
            | none => (.panicked "isdirempty: readi", fs, evs1)
            | some false =>
              (.ret (-1), fs,
                evs1 ++ [Ev.iunlockE ipn, Ev.iputE ipn, Ev.iunlockE dpn,
                         Ev.iputE dpn, Ev.tcommit])
            | some true =>
              if off < dp.data.length then
                let dp1 := { dp with data := dp.data.set off ⟨"", 0⟩ }
                let dp2 := if ip.type = IType.T_DIR then
                    { dp1 with nlink := dp1.nlink - 1 } else dp1
                let evs2 := if ip.type = IType.T_DIR then [Ev.iupdateE dpn] else []
                let fs1 := fs.setInode dpn dp2
                let ip1 := fs1.inodes ipn
                let fs2 := fs1.setInode ipn { ip1 with nlink := ip1.nlink - 1 }
                (.ret 0, fs2,
                  evs1 ++ [Ev.dirwriteE dpn "" 0] ++ evs2 ++
                    [Ev.iunlockE dpn, Ev.iputE dpn, Ev.iupdateE ipn,
                     Ev.iunlockE ipn, Ev.iputE ipn, Ev.tcommit])
              else (.panicked "unlink: writei", fs, evs1)

/-- First free descriptor slot of a per-process table (`fdalloc`). -/
def fdalloc (tbl : List (Option OFile)) : Option Nat :=
  tbl.findIdx? Option.isNone

/-- Result of the symlink-chain loop of `sys_open`. -/
inductive ChainRes where
  | ok (ipn : Nat)
  | broken
  | tooLong
deriving DecidableEq, Repr

/-- The bounded symlink-following loop of `sys_open`: while the current
inode has the symlink flag, resolve its inline target (releasing the
current lock first); a failed resolution aborts, and exhausting the
16-iteration budget is the chain-too-long condition. -/
def openSymLoop (fs : FS) (ipn : Nat) : Nat → ChainRes × List Ev
  | 0 => (.tooLong, [])
  | fuel + 1 =>
    let ip := fs.inodes ipn
    if ip.symlnk then
      match namei fs ip.addrs with
      | none => (.broken, [Ev.iunlockE ipn])
      | some sn =>
        let r := openSymLoop fs sn fuel
        (r.1, Ev.iunlockE ipn :: Ev.ilockE sn :: r.2)
    else (.ok ipn, [])

/-- The first stage of `sys_open`: with `O_CREATE`, run `create` inside
a transaction; otherwise resolve the path, and reject a directory
opened with any mode other than exactly `O_RDONLY`. -/
def sys_openIp (path : String) (omode : Nat) (fs : FS) :
    CreateRes × FS × List Ev :=
  if omode &&& O_CREATE ≠ 0 then
    match create fs path IType.T_FILE 0 0 with
    | (.fail, fs1, evs) =>
      (.fail, fs1, [Ev.argfetch, Ev.tbegin] ++ evs ++ [Ev.tcommit])
    | (.panicked m, fs1, evs) =>
      (.panicked m, fs1, [Ev.argfetch, Ev.tbegin] ++ evs)
    | (.ok ipn, fs1, evs) =>
      (.ok ipn, fs1, [Ev.argfetch, Ev.tbegin] ++ evs ++ [Ev.tcommit])
  else
    match namei fs path with
    | none => (.fail, fs, [Ev.argfetch])
    | some ipn =>
      if (fs.inodes ipn).type = IType.T_DIR ∧ omode ≠ O_RDONLY then
        (.fail, fs, [Ev.argfetch, Ev.ilockE ipn, Ev.iunlockE ipn, Ev.iputE ipn])
      else (.ok ipn, fs, [Ev.argfetch, Ev.ilockE ipn])

/-- `sys_open`: obtain a locked inode (creating it under `O_CREATE`),
follow the symlink chain with a 16-hop budget (a budget overrun is the
`panic("symbolic link exceeds 16 links ")`), then allocate an open-file
object and a descriptor slot and publish the access flags.
`fileallocOk` models whether the external `filealloc` succeeds. -/
def sys_open (argok : Bool) (path : String) (omode : Nat) (fileallocOk : Bool)
    (tbl : List (Option OFile)) (fs : FS) :
    SysRes × FS × List (Option OFile) × List Ev :=
  if argok = false then (.ret (-1), fs, tbl, [.argfetch])
  else
    match sys_openIp path omode fs with
    | (.fail, fs1, evs) => (.ret (-1), fs1, tbl, evs)
    | (.panicked m, fs1, evs) => (.panicked m, fs1, tbl, evs)
    | (.ok ipn, fs1, evs) =>
      match openSymLoop fs1 ipn 16 with
      | (.broken, evs2) => (.ret (-1), fs1, tbl, evs ++ evs2)
      | (.tooLong, evs2) =>
        (.panicked "symbolic link exceeds 16 links ", fs1, tbl, evs ++ evs2)
      | (.ok tipn, evs2) =>
        match (if fileallocOk then fdalloc tbl else none) with
        | none =>
          (.ret (-1), fs1, tbl,
            evs ++ evs2 ++ [Ev.iunlockE tipn, Ev.iputE tipn])
        | some fd =>
          let f : OFile :=
            ⟨FType.FD_INODE, tipn, 0, omode &&& O_WRONLY == 0,
              (omode &&& O_WRONLY != 0) || (omode &&& O_RDWR != 0)⟩
          (.ret (fd : Int), fs1, tbl.set fd (some f),
            evs ++ evs2 ++ [Ev.iunlockE tipn])

/-- `sys_mkdir`: the transaction is opened before the argument fetch;
a failed fetch or a failed `create` still commits before returning. -/
def sys_mkdir (argok : Bool) (path : String) (fs : FS) :
    SysRes × FS × List Ev :=
  if argok = false then (.ret (-1), fs, [Ev.tbegin, Ev.argfetch, Ev.tcommit])
  else
    match create fs path IType.T_DIR 0 0 with
    | (.fail, fs1, evs) =>
      (.ret (-1), fs1, Ev.tbegin :: Ev.argfetch :: evs ++ [Ev.tcommit])
    | (.panicked m, fs1, evs) =>
      (.panicked m, fs1, Ev.tbegin :: Ev.argfetch :: evs)
    | (.ok ipn, fs1, evs) =>
      (.ret 0, fs1,
        Ev.tbegin :: Ev.argfetch :: evs ++
          [Ev.iunlockE ipn, Ev.iputE ipn, Ev.tcommit])

/-- `sys_mknod`: like `sys_mkdir`, the transaction is opened before the
argument fetches. -/
def sys_mknod (argok : Bool) (path : String) (major minor : Int) (fs : FS) :
    SysRes × FS × List Ev :=
  if argok = false then (.ret (-1), fs, [Ev.tbegin, Ev.argfetch, Ev.tcommit])
  else
    match create fs path IType.T_DEV major minor with
    | (.fail, fs1, evs) =>
      (.ret (-1), fs1, Ev.tbegin :: Ev.argfetch :: evs ++ [Ev.tcommit])
    | (.panicked m, fs1, evs) =>
      (.panicked m, fs1, Ev.tbegin :: Ev.argfetch :: evs)
    | (.ok ipn, fs1, evs) =>
      (.ret 0, fs1,
        Ev.tbegin :: Ev.argfetch :: evs ++
          [Ev.iunlockE ipn, Ev.iputE ipn, Ev.tcommit])

/-- `sys_symlink(target, path)`: `create` a plain file inside a
transaction; after the commit, store `target` into the inline buffer
(`panic` when it exceeds `MAX_LNK_NAME`), set the symlink flag, zero
`size`, and build a read-only `FD_SYMLNK` open-file object that is
never installed in the descriptor table.  Returns the object so its
flags can be observed. -/
def sys_symlink (argok : Bool) (target path : String) (fileallocOk : Bool)
    (fs : FS) : SysRes × FS × Option OFile × List Ev :=
  if argok = false then (.ret (-1), fs, none, [.argfetch])
  else
    match create fs path IType.T_FILE 0 0 with
    | (.fail, fs1, evs) =>
      (.ret (-1), fs1, none, Ev.argfetch :: Ev.tbegin :: evs ++ [Ev.tcommit])
    | (.panicked m, fs1, evs) =>
      (.panicked m, fs1, none, Ev.argfetch :: Ev.tbegin :: evs)
    | (.ok ipn, fs1, evs) =>
      let evs1 := Ev.argfetch :: Ev.tbegin :: evs ++ [Ev.tcommit]
      if fileallocOk = false then
        (.ret (-1), fs1, none, evs1 ++ [Ev.iunlockE ipn, Ev.iputE ipn])
      else if strlen target > MAX_LNK_NAME then
        (.panicked "target soft link path is too long ", fs1, none, evs1)
      else
        let ip := fs1.inodes ipn
        let ip2 := { ip with addrs := safestrcpy ip.addrs target MAX_LNK_NAME,
                             symlnk := true, size := 0 }
        (.ret 0, fs1.setInode ipn ip2,
          some ⟨FType.FD_SYMLNK, ipn, 0, true, false⟩,
          evs1 ++ [Ev.setsymE ipn, Ev.iunlockE ipn])

/-- Result of the chain loop of `sys_readlink`: the last symlink of the
chain, a broken link, or an exhausted budget. -/
inductive RLRes where
  | last (ipn : Nat)
  | broken
  | tooLong
deriving DecidableEq, Repr

/-- The bounded chain loop of `sys_readlink` / `k_readlink`: resolve
the current symlink's target; an unresolvable target is a broken link,
a resolved non-symlink ends the loop keeping the *current* (last
symlink) inode, and a resolved symlink continues the chain. -/
def readlinkLoop (fs : FS) (ipn : Nat) : Nat → RLRes × List Ev
  | 0 => (.tooLong, [])
  | fuel + 1 =>
    match namei fs (fs.inodes ipn).addrs with
    | none => (.broken, [Ev.iunlockE ipn])
    | some sn =>
      if (fs.inodes sn).symlnk then
        let r := readlinkLoop fs sn fuel
        (r.1, Ev.iunlockE ipn :: Ev.ilockE sn :: r.2)
      else (.last ipn, [])

/-- `sys_readlink(path, buf, bufsiz)`: the final path component is not
auto-dereferenced; a non-symlink is rejected with `-1`, a broken link
returns the distinct value `-2`, an exhausted 16-hop budget is the
`panic("symbolic link exceeds 16 links ")`, and otherwise the terminal
symlink's inline target is copied into the caller's buffer (bounded by
`bufsiz`) and its length returned.  The second component of the result
is the caller's buffer. -/
def sys_readlink (argok : Bool) (path buf : String) (bufsiz : Nat) (fs : FS) :
    SysRes × String × List Ev :=
  if argok = false then (.ret (-1), buf, [.argfetch])
  else
    match namei fs path with
    | none => (.ret (-1), buf, [.argfetch])
    | some ipn =>
      if (fs.inodes ipn).symlnk = false then
        (.ret (-1), buf, [Ev.argfetch, Ev.ilockE ipn, Ev.iunlockE ipn])
      else
        match readlinkLoop fs ipn 16 with
        | (.tooLong, evs) =>
          (.panicked "symbolic link exceeds 16 links ", buf,
            [Ev.argfetch, Ev.ilockE ipn] ++ evs)
        | (.broken, evs) =>
          (.ret (-2), buf, [Ev.argfetch, Ev.ilockE ipn] ++ evs)
        | (.last ln, evs) =>
          let lip := fs.inodes ln
          if lip.type = IType.T_FILE ∧ lip.symlnk then
            let b := safestrcpy buf lip.addrs bufsiz
            (.ret (strlen b : Int), b,
              [Ev.argfetch, Ev.ilockE ipn] ++ evs ++ [Ev.iunlockE ln])
          else
            (.ret (-1), buf,
              [Ev.argfetch, Ev.ilockE ipn] ++ evs ++ [Ev.iunlockE ln])

/-- `sys_ftag`: wraps the external tag-store mutation (whose status is
the external parameter `r`, modelled from the spec:
`set_tag_store(inode, key, value) -> status`) in a transaction. -/
def sys_ftag (argok : Bool) (r : Int) : SysRes × List Ev :=
  if argok = false then (.ret (-1), [.argfetch])
  else (.ret r, [Ev.argfetch, Ev.tbegin, Ev.tcommit])

/-- `sys_funtag`: wraps the external tag-store clear (status `r`,
modelled from the spec: `clear_tag_store(inode, key) -> status`) in a
transaction. -/
def sys_funtag (argok : Bool) (r : Int) : SysRes × List Ev :=
  if argok = false then (.ret (-1), [.argfetch])
  else (.ret r, [Ev.argfetch, Ev.tbegin, Ev.tcommit])

/-- `sys_gettag`: wraps the external tag-store query (status `r`,
modelled from the spec: `get_tag_store(inode, key, out) -> status`) in
a transaction. -/
def sys_gettag (argok : Bool) (r : Int) : SysRes × List Ev :=
  if argok = false then (.ret (-1), [.argfetch])
  else (.ret r, [Ev.argfetch, Ev.tbegin, Ev.tcommit])

/-- Is the event a transaction begin or commit? -/
def isTxnEv : Ev → Bool
  | Ev.tbegin => true
  | Ev.tcommit => true
  | _ => false

/-- The subsequence of transaction events of a trace. -/
def txnEvs (evs : List Ev) : List Ev :=
  evs.filter isTxnEv

/-- A trace is transaction-balanced when it holds either no transaction
event or exactly one `begin` followed by exactly one `commit`. -/
def txnOk (evs : List Ev) : Bool :=
  txnEvs evs == [] || txnEvs evs == [Ev.tbegin, Ev.tcommit]

/-- Does every argument fetch of the trace precede every transaction
begin?  (The claimed "transaction opened after entry validation".) -/
def txnAfterValidation (evs : List Ev) : Bool :=
  !((evs.dropWhile (fun e => e != Ev.tbegin)).contains Ev.argfetch)

/-- Does event `e` occur between the first `begin` and the first
`commit` of the trace? -/
def withinTxn (evs : List Ev) (e : Ev) : Bool :=
  ((evs.dropWhile (fun x => x != Ev.tbegin)).takeWhile
      (fun x => x != Ev.tcommit)).contains e

/-- Does the current inode start an all-symlink chain of `k` resolvable
hops, each hop landing on a symlink again? -/
def symChainAll (fs : FS) (ipn : Nat) : Nat → Bool
  | 0 => true
  | k + 1 =>
    match namei fs (fs.inodes ipn).addrs with
    | none => false
    | some sn => (fs.inodes sn).symlnk && symChainAll fs sn k

/-- A resolvable symlink chain: `Chain fs ipn d tn` means that from
inode `ipn`, exactly `d` symlink hops (each resolving the inline
target) reach the non-symlink inode `tn`. -/
inductive Chain (fs : FS) : Nat → Nat → Nat → Prop
  | done (ipn : Nat) : (fs.inodes ipn).symlnk = false → Chain fs ipn 0 ipn
  | step (ipn sn d tn : Nat) : (fs.inodes ipn).symlnk = true →
      namei fs (fs.inodes ipn).addrs = some sn →
      Chain fs sn d tn → Chain fs ipn (d + 1) tn

/-! ### Concrete fixtures used by witnesses and counterexamples -/

/-- A blank plain-file inode on device 1. -/
def blankInode : Inode := ⟨1, 0, IType.T_FILE, 0, 0, 0, 0, false, "", []⟩

/-- A root-like directory inode, inode number 1, holding only the two
reserved slots. -/
def rootDir : Inode :=
  ⟨1, 1, IType.T_DIR, 1, 2, 0, 0, false, "", [⟨".", 1⟩, ⟨"..", 1⟩]⟩

/-- A symlink inode whose inline target is the string "a". -/
def loopInode : Inode := ⟨1, 1, IType.T_FILE, 1, 0, 0, 0, true, "a", []⟩

/-- A filesystem whose path "a" resolves to a symlink pointing back at
"a": a symlink loop. -/
def loopFS : FS :=
  { inodes := fun n => if n = 1 then loopInode else blankInode
    resolve := fun s => if s = "a" then some 1 else none
    resolveParent := fun _ => none
    nextInum := 2 }

/-- A filesystem with a root directory (inode 1) in which the path "p"
has parent inode 1 and final component "f", nothing else resolves, and
inode 5 is the next free inode number. -/
def fs6 : FS :=
  { inodes := fun n => if n = 1 then rootDir else blankInode
    resolve := fun s => if s = "/" then some 1 else none
    resolveParent := fun s => if s = "p" then some (1, "f") else none
    nextInum := 5 }

/-- A filesystem whose path "s" resolves to a symlink inode whose
target "gone" resolves to nothing: a broken link. -/
def brokenFS : FS :=
  { inodes := fun n =>
      if n = 1 then ⟨1, 1, IType.T_FILE, 1, 0, 0, 0, true, "gone", []⟩
      else blankInode
    resolve := fun s => if s = "s" then some 1 else none
    resolveParent := fun _ => none
    nextInum := 2 }

/-- A filesystem with a one-hop symlink: "a" resolves to symlink inode
2 whose target "b" resolves to plain-file inode 3. -/
def chainFS : FS :=
  { inodes := fun n =>
      if n = 2 then ⟨1, 2, IType.T_FILE, 1, 0, 0, 0, true, "b", []⟩
      else if n = 3 then ⟨1, 3, IType.T_FILE, 1, 0, 0, 0, false, "", []⟩
      else if n = 1 then rootDir else blankInode
    resolve := fun s => if s = "a" then some 2 else if s = "b" then some 3 else none
    resolveParent := fun _ => none
    nextInum := 4 }

/-- A filesystem for the symlink round trip: "p" has parent inode 1
(the root, with no entry named "p" yet) and the prospective target "f"
resolves to the plain non-symlink file inode 2. -/
def roundFS : FS :=
  { inodes := fun n =>
      if n = 1 then rootDir
      else if n = 2 then ⟨1, 2, IType.T_FILE, 1, 0, 0, 0, false, "", []⟩
      else blankInode
    resolve := fun s => if s = "f" then some 2 else none
    resolveParent := fun s => if s = "p" then some (1, "p") else none
    nextInum := 5 }

/-- A filesystem for unlink tests: root (inode 1) holds an entry "d"
for inode 2, an empty directory, and an entry "e" for inode 3, a
directory holding a file entry past its two reserved slots. -/
def unlinkFS : FS :=
  { inodes := fun n =>
      if n = 1 then ⟨1, 1, IType.T_DIR, 4, 5, 0, 0, false, "",
        [⟨".", 1⟩, ⟨"..", 1⟩, ⟨"d", 2⟩, ⟨"e", 3⟩, ⟨"g", 4⟩]⟩
      else if n = 2 then ⟨1, 2, IType.T_DIR, 2, 2, 0, 0, false, "",
        [⟨".", 2⟩, ⟨"..", 1⟩]⟩
      else if n = 3 then ⟨1, 3, IType.T_DIR, 2, 3, 0, 0, false, "",
        [⟨".", 3⟩, ⟨"..", 1⟩, ⟨"x", 4⟩]⟩
      else if n = 4 then ⟨1, 4, IType.T_FILE, 1, 0, 0, 0, false, "", []⟩
      else blankInode
    resolve := fun s =>
      if s = "d" then some 2 else if s = "e" then some 3
      else if s = "x" then some 4 else none
    resolveParent := fun s =>
      if s = "d" then some (1, "d") else if s = "e" then some (1, "e")
      else if s = "q" then some (1, "q")
      else if s = "g" then some (1, "g") else none
    nextInum := 5 }

/-! ### Helper lemmas -/

theorem FS.inodes_setInode_same (fs : FS) (n : Nat) (ip : Inode) :
    (fs.setInode n ip).inodes n = ip := by
  simp [FS.setInode]

theorem FS.inodes_setInode_ne (fs : FS) {m n : Nat} (ip : Inode) (h : m ≠ n) :
    (fs.setInode n ip).inodes m = fs.inodes m := by
  simp [FS.setInode, h]

theorem FS.resolve_setResolve_same (fs : FS) (p : String) (n : Nat) :
    (fs.setResolve p n).resolve p = some n := by
  simp [FS.setResolve]

theorem FS.resolve_setResolve_ne (fs : FS) {q p : String} (n : Nat) (h : q ≠ p) :
    (fs.setResolve p n).resolve q = fs.resolve q := by
  simp [FS.setResolve, h]

theorem dirlookupAux_bound (name : String) :
    ∀ (l : List Dirent) (k i off : Nat), dirlookupAux name l k = some (i, off) →
      off < k + l.length ∧ k ≤ off := by
  intro l
  induction l with
  | nil => intro k i off h; simp [dirlookupAux] at h
  | cons de rest ih =>
    intro k i off h
    rw [dirlookupAux] at h
    by_cases hc : de.inum ≠ 0 ∧ de.name = name
    · rw [if_pos hc] at h
      simp only [Option.some.injEq, Prod.mk.injEq] at h
      simp only [List.length_cons]
      omega
    · rw [if_neg hc] at h
      have := ih (k + 1) i off h
      simp only [List.length_cons]
      omega

theorem dirlookup_lt (dp : Inode) (name : String) (i off : Nat)
    (h : dirlookup dp name = some (i, off)) : off < dp.data.length := by
  have := dirlookupAux_bound name dp.data 0 i off h
  omega

theorem isdiremptyList_range' (dp : Inode) (hwf : dp.size = dp.data.length) :
    ∀ (n off : Nat), off + n = dp.size →
      isdiremptyList dp (List.range' off n) =
        some ((dp.data.drop off).all (fun de => de.inum == 0)) := by
  intro n
  induction n with
  | zero =>
    intro off h
    have : dp.data.drop off = [] := List.drop_eq_nil_of_le (by omega)
    simp [List.range', isdiremptyList, this]
  | succ n ih =>
    intro off h
    have hlt : off < dp.data.length := by omega
    rw [List.range'_succ]
    rw [isdiremptyList]
    rw [List.get?_eq_getElem?, List.getElem?_eq_getElem hlt]
    rw [List.drop_eq_getElem_cons hlt]
    dsimp only
    by_cases hz : dp.data[off].inum ≠ 0
    · rw [if_pos hz]
      simp only [List.all_cons]
      have : (dp.data[off].inum == 0) = false := by
        simp only [beq_eq_false_iff_ne, ne_eq]; exact hz
      rw [this]
      simp
    · rw [if_neg hz]
      push_neg at hz
      rw [ih (off + 1) (by omega)]
      simp only [List.all_cons]
      have : (dp.data[off].inum == 0) = true := by simp [hz]
      rw [this]
      simp

theorem isdirempty_eq (dp : Inode) (hwf : dp.size = dp.data.length) :
    isdirempty dp = some ((dp.data.drop 2).all (fun de => de.inum == 0)) := by
  rw [isdirempty]
  by_cases h2 : 2 ≤ dp.size
  · exact isdiremptyList_range' dp hwf (dp.size - 2) 2 (by omega)
  · have hz : dp.size - 2 = 0 := by omega
    have : dp.data.drop 2 = [] := List.drop_eq_nil_of_le (by omega)
    simp [hz, List.range', isdiremptyList, this]

theorem strTake_self (s : String) (n : Nat) (h : strlen s ≤ n) : strTake s n = s := by
  cases s with
  | mk l => simp only [strTake, strlen] at *; rw [List.take_of_length_le h]

theorem openSymLoop_ok (fs : FS) {ipn d tn : Nat} (h : Chain fs ipn d tn) :
    ∀ fuel, d < fuel → ∃ evs, openSymLoop fs ipn fuel = (ChainRes.ok tn, evs) := by
  induction h with
  | done ipn hs =>
    intro fuel hf
    cases fuel with
    | zero => omega
    | succ f => exact ⟨[], by simp [openSymLoop, hs]⟩
  | step ipn sn d tn hs hr _ ih =>
    intro fuel hf
    cases fuel with
    | zero => omega
    | succ f =>
      obtain ⟨evs, he⟩ := ih f (by omega)
      exact ⟨Ev.iunlockE ipn :: Ev.ilockE sn :: evs,
        by simp [openSymLoop, hs, hr, he]⟩

theorem openSymLoop_tooLong (fs : FS) :
    ∀ fuel {ipn d tn : Nat}, Chain fs ipn d tn → fuel ≤ d →
      (openSymLoop fs ipn fuel).1 = ChainRes.tooLong := by
  intro fuel
  induction fuel with
  | zero => intro ipn d tn _ _; simp [openSymLoop]
  | succ f ih =>
    intro ipn d tn h hf
    cases h with
    | done _ hs => omega
    | step _ sn d' tn hs hr hc =>
      have hrec := ih hc (by omega)
      simp [openSymLoop, hs, hr, hrec]

theorem readlinkLoop_tooLong (fs : FS) :
    ∀ (fuel ipn : Nat), symChainAll fs ipn fuel = true →
      (readlinkLoop fs ipn fuel).1 = RLRes.tooLong := by
  intro fuel
  induction fuel with
  | zero => intro ipn _; simp [readlinkLoop]
  | succ f ih =>
    intro ipn h
    rw [symChainAll] at h
    cases hr : namei fs (fs.inodes ipn).addrs with
    | none => rw [hr] at h; simp at h
    | some sn =>
      rw [hr] at h
      simp only [Bool.and_eq_true] at h
      simp [readlinkLoop, hr, h.1, ih sn h.2]

theorem txnEvs_append (a b : List Ev) : txnEvs (a ++ b) = txnEvs a ++ txnEvs b :=
  List.filter_append ..

theorem txnEvs_argfetch (l : List Ev) :
    txnEvs (Ev.argfetch :: l) = txnEvs l := rfl

theorem txnEvs_tbegin (l : List Ev) :
    txnEvs (Ev.tbegin :: l) = Ev.tbegin :: txnEvs l := rfl

theorem txnEvs_tcommit (l : List Ev) :
    txnEvs (Ev.tcommit :: l) = Ev.tcommit :: txnEvs l := rfl

theorem txnEvs_ilockE (n : Nat) (l : List Ev) :
    txnEvs (Ev.ilockE n :: l) = txnEvs l := rfl

theorem txnEvs_iunlockE (n : Nat) (l : List Ev) :
    txnEvs (Ev.iunlockE n :: l) = txnEvs l := rfl

theorem txnEvs_iputE (n : Nat) (l : List Ev) :
    txnEvs (Ev.iputE n :: l) = txnEvs l := rfl

theorem txnEvs_nil : txnEvs [] = [] := rfl

theorem txnOk_of_disj (a : List Ev)
    (h : txnEvs a = [] ∨ txnEvs a = [Ev.tbegin, Ev.tcommit]) :
    txnOk a = true := by
  rcases h with h | h <;> simp [txnOk, h]

theorem txnEvs_create (fs : FS) (path : String) (ty : IType) (ma mi : Int) :
    txnEvs (create fs path ty ma mi).2.2 = [] := by
  simp only [create]
  repeat' split
  all_goals simp [txnEvs, isTxnEv]

theorem txnEvs_openSymLoop (fs : FS) :
    ∀ (fuel ipn : Nat), txnEvs (openSymLoop fs ipn fuel).2 = [] := by
  intro fuel
  induction fuel with
  | zero => intro ipn; rfl
  | succ f ih =>
    intro ipn
    rw [openSymLoop]
    by_cases hs : (fs.inodes ipn).symlnk
    · cases hr : namei fs (fs.inodes ipn).addrs with
      | none => simp [hs, hr, txnEvs, isTxnEv]
      | some sn =>
        simp only [hs, hr, if_true]
        rw [txnEvs_iunlockE, txnEvs_ilockE]
        exact ih sn
    · simp [hs, txnEvs]

theorem txnEvs_openIp (p : String) (o : Nat) (fs : FS) :
    (∃ m, (sys_openIp p o fs).1 = CreateRes.panicked m) ∨
    txnEvs (sys_openIp p o fs).2.2 = [] ∨
    txnEvs (sys_openIp p o fs).2.2 = [Ev.tbegin, Ev.tcommit] := by
  rw [sys_openIp]
  split
  · cases hcr : create fs p IType.T_FILE 0 0 with
    | mk cr rest =>
      cases rest with
      | mk fs1 evs =>
        have hc := txnEvs_create fs p IType.T_FILE 0 0
        rw [hcr] at hc
        simp only at hc
        cases cr with
        | panicked m => left; exact ⟨m, rfl⟩
        | fail =>
          right; right
          show txnEvs (Ev.argfetch :: Ev.tbegin :: (evs ++ [Ev.tcommit])) =
            [Ev.tbegin, Ev.tcommit]
          rw [txnEvs_argfetch, txnEvs_tbegin, txnEvs_append, hc]
          rfl
        | ok ipn =>
          right; right
          show txnEvs (Ev.argfetch :: Ev.tbegin :: (evs ++ [Ev.tcommit])) =
            [Ev.tbegin, Ev.tcommit]
          rw [txnEvs_argfetch, txnEvs_tbegin, txnEvs_append, hc]
          rfl
  · split
    · right; left; rfl
    · split <;> (right; left; rfl)

theorem txnOk_link_aux (a : Bool) (op np : String) (fs : FS) :
    txnOk (sys_link a op np fs).2.2 = true := by
  simp only [sys_link]
  repeat' split
  all_goals simp [txnOk, txnEvs, isTxnEv]

theorem txnOk_unlink_aux (a : Bool) (p : String) (fs : FS) :
    txnOk (sys_unlink a p fs).2.2 = true ∨
    (∃ m, (sys_unlink a p fs).1 = SysRes.panicked m) := by
  simp only [sys_unlink]
  repeat' split
  all_goals first
    | (right; exact ⟨_, rfl⟩)
    | (left; simp [txnOk, txnEvs, isTxnEv])

theorem txnOk_open_aux (a : Bool) (p : String) (o : Nat) (fo : Bool)
    (tbl : List (Option OFile)) (fs : FS) :
    txnOk (sys_open a p o fo tbl fs).2.2.2 = true ∨
    (∃ m, (sys_open a p o fo tbl fs).1 = SysRes.panicked m) := by
  cases a with
  | false => left; rfl
  | true =>
    cases hip : sys_openIp p o fs with
    | mk cr rest =>
      cases rest with
      | mk fs1 evs =>
        have hie := txnEvs_openIp p o fs
        rw [hip] at hie
        simp only at hie
        cases cr with
        | panicked m =>
          right
          exact ⟨m, by simp [sys_open, hip]⟩
        | fail =>
          left
          rcases hie with ⟨m, hm⟩ | hok
          · exact absurd hm (by simp)
          · refine txnOk_of_disj _ ?_
            simpa [sys_open, hip] using hok
        | ok ipn =>
          rcases hie with ⟨m, hm⟩ | hok
          · exact absurd hm (by simp)
          · cases hl : openSymLoop fs1 ipn 16 with
            | mk r2 evs2 =>
              have h2 := txnEvs_openSymLoop fs1 16 ipn
              rw [hl] at h2
              simp only at h2
              cases r2 with
              | tooLong =>
                right
                exact ⟨"symbolic link exceeds 16 links ",
                  by simp [sys_open, hip, hl]⟩
              | broken =>
                left
                refine txnOk_of_disj _ ?_
                simpa [sys_open, hip, hl, txnEvs_append, h2] using hok
              | ok tipn =>
                left
                refine txnOk_of_disj _ ?_
                cases hfd : (if fo then fdalloc tbl else none) with
                | none =>
                  simpa [sys_open, hip, hl, hfd, txnEvs_append, h2,
                    txnEvs_iunlockE, txnEvs_iputE, txnEvs_nil] using hok
                | some fd =>
                  simpa [sys_open, hip, hl, hfd, txnEvs_append, h2,
                    txnEvs_iunlockE, txnEvs_iputE, txnEvs_nil] using hok

theorem txnOk_mkdir_aux (a : Bool) (p : String) (fs : FS) :
    txnOk (sys_mkdir a p fs).2.2 = true ∨
    (∃ m, (sys_mkdir a p fs).1 = SysRes.panicked m) := by
  cases a with
  | false => left; rfl
  | true =>
    cases hcr : create fs p IType.T_DIR 0 0 with
    | mk cr rest =>
      cases rest with
      | mk fs1 evs =>
        have hc := txnEvs_create fs p IType.T_DIR 0 0
        rw [hcr] at hc
        simp only at hc
        cases cr with
        | panicked m => right; exact ⟨m, by simp [sys_mkdir, hcr]⟩
        | fail =>
          left
          simp only [sys_mkdir, hcr]
          refine txnOk_of_disj _ (Or.inr ?_)
          show txnEvs (Ev.tbegin :: Ev.argfetch :: (evs ++ [Ev.tcommit])) =
            [Ev.tbegin, Ev.tcommit]
          rw [txnEvs_tbegin, txnEvs_argfetch, txnEvs_append, hc]
          rfl
        | ok ipn =>
          left
          simp only [sys_mkdir, hcr]
          refine txnOk_of_disj _ (Or.inr ?_)
          show txnEvs (Ev.tbegin :: Ev.argfetch ::
              (evs ++ [Ev.iunlockE ipn, Ev.iputE ipn, Ev.tcommit])) =
            [Ev.tbegin, Ev.tcommit]
          rw [txnEvs_tbegin, txnEvs_argfetch, txnEvs_append, hc]
          rfl

theorem txnOk_mknod_aux (a : Bool) (p : String) (ma mi : Int) (fs : FS) :
    txnOk (sys_mknod a p ma mi fs).2.2 = true ∨
    (∃ m, (sys_mknod a p ma mi fs).1 = SysRes.panicked m) := by
  cases a with
  | false => left; rfl
  | true =>
    cases hcr : create fs p IType.T_DEV ma mi with
    | mk cr rest =>
      cases rest with
      | mk fs1 evs =>
        have hc := txnEvs_create fs p IType.T_DEV ma mi
        rw [hcr] at hc
        simp only at hc
        cases cr with
        | panicked m => right; exact ⟨m, by simp [sys_mknod, hcr]⟩
        | fail =>
          left
          simp only [sys_mknod, hcr]
          refine txnOk_of_disj _ (Or.inr ?_)
          show txnEvs (Ev.tbegin :: Ev.argfetch :: (evs ++ [Ev.tcommit])) =
            [Ev.tbegin, Ev.tcommit]
          rw [txnEvs_tbegin, txnEvs_argfetch, txnEvs_append, hc]
          rfl
        | ok ipn =>
          left
          simp only [sys_mknod, hcr]
          refine txnOk_of_disj _ (Or.inr ?_)
          show txnEvs (Ev.tbegin :: Ev.argfetch ::
              (evs ++ [Ev.iunlockE ipn, Ev.iputE ipn, Ev.tcommit])) =
            [Ev.tbegin, Ev.tcommit]
          rw [txnEvs_tbegin, txnEvs_argfetch, txnEvs_append, hc]
          rfl

theorem txnOk_symlink_aux (a : Bool) (t p : String) (fo : Bool) (fs : FS) :
    txnOk (sys_symlink a t p fo fs).2.2.2 = true ∨
    (∃ m, (sys_symlink a t p fo fs).1 = SysRes.panicked m) := by
  cases a with
  | false => left; rfl
  | true =>
    cases hcr : create fs p IType.T_FILE 0 0 with
    | mk cr rest =>
      cases rest with
      | mk fs1 evs =>
        have hc := txnEvs_create fs p IType.T_FILE 0 0
        rw [hcr] at hc
        simp only at hc
        have hmain : txnEvs (Ev.argfetch :: Ev.tbegin :: evs ++ [Ev.tcommit]) =
            [Ev.tbegin, Ev.tcommit] := by
          rw [txnEvs_append, txnEvs_argfetch, txnEvs_tbegin, hc]
          rfl
        cases cr with
        | panicked m => right; exact ⟨m, by simp [sys_symlink, hcr]⟩
        | fail =>
          left
          simp only [sys_symlink, hcr]
          rw [if_neg (show ¬ (true = false) by simp)]
          exact txnOk_of_disj _ (Or.inr hmain)
        | ok ipn =>
          left
          simp only [sys_symlink, hcr]
          rw [if_neg (show ¬ (true = false) by simp)]
          split
          · exact txnOk_of_disj _ (Or.inr (by rw [txnEvs_append, hmain]; rfl))
          · split
            · exact txnOk_of_disj _ (Or.inr hmain)
            · exact txnOk_of_disj _ (Or.inr (by rw [txnEvs_append, hmain]; rfl))

/-- `create` on a fresh plain-file path: result, trace and state,
characterised by projections. -/
theorem create_file_fresh (fs : FS) (path name : String) (dpn : Nat)
    (major minor : Int)
    (hpar : nameiparent fs path = some (dpn, name))
    (hlook : dirlookup (fs.inodes dpn) name = none)
    (hne : dpn ≠ fs.nextInum) :
    (create fs path IType.T_FILE major minor).1 = CreateRes.ok fs.nextInum ∧
    (create fs path IType.T_FILE major minor).2.2 =
      [Ev.ilockE dpn, Ev.ilockE fs.nextInum, Ev.iupdateE fs.nextInum,
       Ev.dirwriteE dpn name fs.nextInum, Ev.iunlockE dpn, Ev.iputE dpn] ∧
    (create fs path IType.T_FILE major minor).2.1.inodes fs.nextInum =
      ⟨(fs.inodes dpn).dev, fs.nextInum, IType.T_FILE, 1, 0, major, minor,
        false, "", []⟩ ∧
    ((create fs path IType.T_FILE major minor).2.1.inodes dpn).symlnk =
      (fs.inodes dpn).symlnk ∧
    (∀ m, m ≠ fs.nextInum → m ≠ dpn →
      (create fs path IType.T_FILE major minor).2.1.inodes m = fs.inodes m) ∧
    (create fs path IType.T_FILE major minor).2.1.resolve path =
      some fs.nextInum ∧
    (∀ q, q ≠ path →
      (create fs path IType.T_FILE major minor).2.1.resolve q = fs.resolve q) := by
  have hd : dirlookup
      ((fs.setInode fs.nextInum
        { fs.inodes fs.nextInum with major := major, minor := minor, nlink := 1 }).inodes dpn)
      name = none := by
    rw [FS.inodes_setInode_ne _ _ hne]; exact hlook
  refine ⟨?_, ?_, ?_, ?_, ?_, ?_, ?_⟩ <;>
    simp only [create, hpar, hlook, ialloc, dirlink, FS.setInode, FS.setResolve,
      dirlookup] at * <;>
    simp_all [hne, Ne.symm hne]

/-- `sys_symlink` on a fresh path with a target within the inline
capacity: the creation succeeds inside the transaction, and the target
store, flag set and size zeroing happen after the commit. -/
theorem sys_symlink_ok (target path name : String) (fs : FS) (dpn : Nat)
    (hpar : nameiparent fs path = some (dpn, name))
    (hlook : dirlookup (fs.inodes dpn) name = none)
    (hne : dpn ≠ fs.nextInum)
    (hlen : strlen target ≤ MAX_LNK_NAME) :
    (sys_symlink true target path true fs).1 = SysRes.ret 0 ∧
    (sys_symlink true target path true fs).2.2.1 =
      some ⟨FType.FD_SYMLNK, fs.nextInum, 0, true, false⟩ ∧
    (sys_symlink true target path true fs).2.1.inodes fs.nextInum =
      ⟨(fs.inodes dpn).dev, fs.nextInum, IType.T_FILE, 1, 0, 0, 0, true,
        strTake target (MAX_LNK_NAME - 1), []⟩ ∧
    ((sys_symlink true target path true fs).2.1.inodes dpn).symlnk =
      (fs.inodes dpn).symlnk ∧
    (∀ m, m ≠ fs.nextInum → m ≠ dpn →
      (sys_symlink true target path true fs).2.1.inodes m = fs.inodes m) ∧
    (sys_symlink true target path true fs).2.1.resolve path =
      some fs.nextInum ∧
    (∀ q, q ≠ path →
      (sys_symlink true target path true fs).2.1.resolve q = fs.resolve q) ∧
    (sys_symlink true target path true fs).2.2.2 =
      [Ev.argfetch, Ev.tbegin, Ev.ilockE dpn, Ev.ilockE fs.nextInum,
       Ev.iupdateE fs.nextInum, Ev.dirwriteE dpn name fs.nextInum,
       Ev.iunlockE dpn, Ev.iputE dpn, Ev.tcommit, Ev.setsymE fs.nextInum,
       Ev.iunlockE fs.nextInum] := by
  obtain ⟨h1, h2, h3, h4, h5, h6, h7⟩ :=
    create_file_fresh fs path name dpn 0 0 hpar hlook hne
  cases hc : create fs path IType.T_FILE 0 0 with
  | mk res rest =>
    cases rest with
    | mk fs1 evs =>
      rw [hc] at h1 h2 h3 h4 h5 h6 h7
      simp only at h1 h2 h3 h4 h5 h6 h7
      subst h1 h2
      refine ⟨?_, ?_, ?_, ?_, ?_, ?_, ?_, ?_⟩ <;>
        simp_all [sys_symlink, hc, safestrcpy, FS.setInode, FS.setResolve,
          Ne.symm hne,
          show (MAX_LNK_NAME < strlen target) = False by
            simp only [eq_iff_iff, iff_false, not_lt]; exact hlen,
          show (MAX_LNK_NAME = 0) = False by simp [MAX_LNK_NAME]]

/-- Case analysis of `sys_link`: every run either returns 0, or returns
-1 with every inode's link count unchanged. -/
theorem sys_link_cases (argok : Bool) (oldp newp : String) (fs : FS) :
    (sys_link argok oldp newp fs).1 = SysRes.ret 0 ∨
    ((sys_link argok oldp newp fs).1 = SysRes.ret (-1) ∧
      ∀ n, ((sys_link argok oldp newp fs).2.1.inodes n).nlink =
        (fs.inodes n).nlink) := by
  simp only [sys_link]
  split
  · right; exact ⟨rfl, fun n => rfl⟩
  · split
    · right; exact ⟨rfl, fun n => rfl⟩
    · rename_i ipn heq
      split
      · right; exact ⟨rfl, fun n => rfl⟩
      · split
        · right
          refine ⟨rfl, fun n => ?_⟩
          by_cases hm : n = ipn <;> simp [FS.setInode, hm]
        · split
          · right
            refine ⟨rfl, fun n => ?_⟩
            by_cases hm : n = ipn <;> simp [FS.setInode, hm]
          · split
            · right
              refine ⟨rfl, fun n => ?_⟩
              by_cases hm : n = ipn <;> simp [FS.setInode, hm]
            · left; rfl

/-! ### Claim theorems -/

/-- C3: `link(old, new)` fails when `old` resolves to a directory
inode; and every failing run of `sys_link` leaves every inode's
`link_count` unchanged — the optimistic increment is compensated by the
decrement of the shared failure path. -/
theorem sys_link_dir_rejected_nlink_restored (argok : Bool)
    (oldp newp : String) (fs : FS) :
    (∀ ipn, namei fs oldp = some ipn →
      (fs.inodes ipn).type = IType.T_DIR →
      (sys_link argok oldp newp fs).1 = SysRes.ret (-1)) ∧
    ((sys_link argok oldp newp fs).1 = SysRes.ret (-1) →
      ∀ n, ((sys_link argok oldp newp fs).2.1.inodes n).nlink =
        (fs.inodes n).nlink) := by
  constructor
  · intro ipn hres hdir
    cases argok with
    | false => rfl
    | true => simp [sys_link, hres, hdir]
  · intro hret n
    rcases sys_link_cases argok oldp newp fs with h | ⟨-, h2⟩
    · rw [h] at hret; simp at hret
    · exact h2 n

/-- C3 witness: linking the directory "d" of `unlinkFS` fails and
leaves the target's link count unchanged. -/
theorem sys_link_dir_rejected_nlink_restored_witness :
    (sys_link true "d" "q" unlinkFS).1 = SysRes.ret (-1) ∧
    ((sys_link true "d" "q" unlinkFS).2.1.inodes 2).nlink =
      (unlinkFS.inodes 2).nlink := by
  have h := sys_link_dir_rejected_nlink_restored true "d" "q" unlinkFS
  have h1 := h.1 2 rfl rfl
  exact ⟨h1, h.2 h1 2⟩

/-- C4: `unlink` on a directory target (under the checks the source
performs first: the name is not "." or "..", the entry is found, the
target's link count is positive, and the directory's size is
consistent): if every entry past the two reserved slots is free, it
succeeds; otherwise it fails with -1 and the whole filesystem state —
in particular the parent's entries and both link counts — is
unmodified. -/
theorem sys_unlink_dir_empty_check (path name : String) (fs : FS)
    (dpn ipn off : Nat)
    (hpar : nameiparent fs path = some (dpn, name))
    (hdot1 : name ≠ ".") (hdot2 : name ≠ "..")
    (hlook : dirlookup (fs.inodes dpn) name = some (ipn, off))
    (hnl : ¬ (fs.inodes ipn).nlink < 1)
    (hdir : (fs.inodes ipn).type = IType.T_DIR)
    (hwf : (fs.inodes ipn).size = (fs.inodes ipn).data.length) :
    (((fs.inodes ipn).data.drop 2).all (fun de => de.inum == 0) = true →
      (sys_unlink true path fs).1 = SysRes.ret 0) ∧
    (((fs.inodes ipn).data.drop 2).all (fun de => de.inum == 0) = false →
      (sys_unlink true path fs).1 = SysRes.ret (-1) ∧
      (sys_unlink true path fs).2.1 = fs) := by
  have hie := isdirempty_eq (fs.inodes ipn) hwf
  have hoff : off < (fs.inodes dpn).data.length := dirlookup_lt _ _ _ _ hlook
  constructor
  · intro hall
    rw [hall] at hie
    simp [sys_unlink, hpar, hdot1, hdot2, hlook, hnl, hdir, hie, hoff]
  · intro hall
    rw [hall] at hie
    constructor <;> simp [sys_unlink, hpar, hdot1, hdot2, hlook, hnl, hdir, hie]

/-- C4 witness: unlinking the empty directory "d" of `unlinkFS`
succeeds, and unlinking the non-empty directory "e" fails leaving the
state unchanged. -/
theorem sys_unlink_dir_empty_check_witness :
    (sys_unlink true "d" unlinkFS).1 = SysRes.ret 0 ∧
    (sys_unlink true "e" unlinkFS).1 = SysRes.ret (-1) ∧
    (sys_unlink true "e" unlinkFS).2.1 = unlinkFS := by
  refine ⟨(sys_unlink_dir_empty_check "d" "d" unlinkFS 1 2 2 rfl (by decide)
      (by decide) rfl (by decide) rfl rfl).1 (by decide), ?_, ?_⟩
  · exact ((sys_unlink_dir_empty_check "e" "e" unlinkFS 1 3 3 rfl (by decide)
      (by decide) rfl (by decide) rfl rfl).2 (by decide)).1
  · exact ((sys_unlink_dir_empty_check "e" "e" unlinkFS 1 3 3 rfl (by decide)
      (by decide) rfl (by decide) rfl rfl).2 (by decide)).2

/-- C5: `create` on a path whose final name already exists: when both
the request and the existing entry are plain files, the existing inode
is returned (locked) with the state completely unchanged — no
allocation, no directory write, no link-count change — which makes
open-with-create idempotent; for any other kind combination it fails
after releasing the child's lock. -/
theorem create_existing_plain_file (path name : String) (fs : FS)
    (dpn ipn off : Nat) (ty : IType) (major minor : Int)
    (hpar : nameiparent fs path = some (dpn, name))
    (hlook : dirlookup (fs.inodes dpn) name = some (ipn, off)) :
    (ty = IType.T_FILE ∧ (fs.inodes ipn).type = IType.T_FILE →
      create fs path ty major minor =
        (CreateRes.ok ipn, fs,
          [Ev.ilockE dpn, Ev.iunlockE dpn, Ev.iputE dpn, Ev.ilockE ipn])) ∧
    (¬(ty = IType.T_FILE ∧ (fs.inodes ipn).type = IType.T_FILE) →
      create fs path ty major minor =
        (CreateRes.fail, fs,
          [Ev.ilockE dpn, Ev.iunlockE dpn, Ev.iputE dpn, Ev.ilockE ipn,
           Ev.iunlockE ipn, Ev.iputE ipn])) := by
  constructor <;> intro h <;> simp [create, hpar, hlook, h]

/-- C5 witness: creating "g" (an existing plain file of `unlinkFS`) as
a plain file returns inode 4 and leaves the state unchanged; creating
the existing directory "d" as a plain file fails. -/
theorem create_existing_plain_file_witness :
    create unlinkFS "g" IType.T_FILE 0 0 =
      (CreateRes.ok 4, unlinkFS,
        [Ev.ilockE 1, Ev.iunlockE 1, Ev.iputE 1, Ev.ilockE 4]) ∧
    create unlinkFS "d" IType.T_FILE 0 0 =
      (CreateRes.fail, unlinkFS,
        [Ev.ilockE 1, Ev.iunlockE 1, Ev.iputE 1, Ev.ilockE 2,
         Ev.iunlockE 2, Ev.iputE 2]) := by
  constructor
  · exact (create_existing_plain_file "g" "g" unlinkFS 1 4 4 IType.T_FILE 0 0
      rfl rfl).1 (by decide)
  · exact (create_existing_plain_file "d" "d" unlinkFS 1 2 2 IType.T_FILE 0 0
      rfl rfl).2 (by decide)

/-- C10: `open` without `O_CREATE` on a path resolving to a directory,
with any mode other than exactly read-only, returns -1, consumes no
descriptor slot (the table is unchanged), and releases the inode
reference taken during resolution (the trace ends with the
unlock-and-release pair). -/
theorem sys_open_dir_write_rejected (path : String) (omode : Nat)
    (fok : Bool) (tbl : List (Option OFile)) (fs : FS) (ipn : Nat)
    (hcr : omode &&& O_CREATE = 0)
    (hm : omode ≠ O_RDONLY)
    (hres : namei fs path = some ipn)
    (hdir : (fs.inodes ipn).type = IType.T_DIR) :
    sys_open true path omode fok tbl fs =
      (SysRes.ret (-1), fs, tbl,
        [Ev.argfetch, Ev.ilockE ipn, Ev.iunlockE ipn, Ev.iputE ipn]) := by
  simp [sys_open, sys_openIp, hcr, hres, hdir, hm]

/-- C10 witness: opening the directory "d" of `unlinkFS` with mode
`O_WRONLY` fails, leaving the one-slot table unchanged and releasing
inode 2. -/
theorem sys_open_dir_write_rejected_witness :
    sys_open true "d" 1 true [none] unlinkFS =
      (SysRes.ret (-1), unlinkFS, [none],
        [Ev.argfetch, Ev.ilockE 2, Ev.iunlockE 2, Ev.iputE 2]) :=
  sys_open_dir_write_rejected "d" 1 true [none] unlinkFS 2 (by decide)
    (by decide) rfl rfl

/-- C9: a successful `create` of a fresh directory sets the new
directory's link count to 1 (no self increment for "."), increments
the parent's link count by exactly one for the ".." back-reference and
persists it (the `iupdate` of the parent appears in the trace), and
writes the "." and ".." entries — pointing at the new directory and
its parent — into the new directory before the name is linked into the
parent, as the trace order shows. -/
theorem create_dir_link_counts (path name : String) (fs : FS) (dpn : Nat)
    (hpar : nameiparent fs path = some (dpn, name))
    (hlook : dirlookup (fs.inodes dpn) name = none)
    (hne : dpn ≠ fs.nextInum)
    (hz : fs.nextInum ≠ 0) :
    (create fs path IType.T_DIR 0 0).1 = CreateRes.ok fs.nextInum ∧
    (create fs path IType.T_DIR 0 0).2.1.inodes fs.nextInum =
      ⟨(fs.inodes dpn).dev, fs.nextInum, IType.T_DIR, 1, 2, 0, 0, false, "",
        [⟨".", fs.nextInum⟩, ⟨"..", dpn⟩]⟩ ∧
    ((create fs path IType.T_DIR 0 0).2.1.inodes dpn).nlink =
      (fs.inodes dpn).nlink + 1 ∧
    (create fs path IType.T_DIR 0 0).2.2 =
      [Ev.ilockE dpn, Ev.ilockE fs.nextInum, Ev.iupdateE fs.nextInum,
       Ev.iupdateE dpn, Ev.dirwriteE fs.nextInum "." fs.nextInum,
       Ev.dirwriteE fs.nextInum ".." dpn, Ev.dirwriteE dpn name fs.nextInum,
       Ev.iunlockE dpn, Ev.iputE dpn] := by
  have hlook' : dirlookupAux name (fs.inodes dpn).data 0 = none := hlook
  refine ⟨?_, ?_, ?_, ?_⟩ <;>
    simp [create, hpar, hlook, hlook', ialloc, dirlink, dirlookup,
      dirlookupAux, writeFree, FS.setInode, FS.setResolve, hne,
      Ne.symm hne, hz]

/-- C9 witness: `create` of a fresh directory at "p" in `fs6`
(parent: root inode 1, fresh inode 5). -/
theorem create_dir_link_counts_witness :
    (create fs6 "p" IType.T_DIR 0 0).1 = CreateRes.ok 5 ∧
    (create fs6 "p" IType.T_DIR 0 0).2.1.inodes 5 =
      ⟨1, 5, IType.T_DIR, 1, 2, 0, 0, false, "",
        [⟨".", 5⟩, ⟨"..", 1⟩]⟩ ∧
    ((create fs6 "p" IType.T_DIR 0 0).2.1.inodes 1).nlink =
      (fs6.inodes 1).nlink + 1 ∧
    (create fs6 "p" IType.T_DIR 0 0).2.2 =
      [Ev.ilockE 1, Ev.ilockE 5, Ev.iupdateE 5, Ev.iupdateE 1,
       Ev.dirwriteE 5 "." 5, Ev.dirwriteE 5 ".." 1, Ev.dirwriteE 1 "f" 5,
       Ev.iunlockE 1, Ev.iputE 1] :=
  create_dir_link_counts "p" "f" fs6 1 rfl rfl (by decide) (by decide)

/-- C1 counterexample: on `loopFS`, whose path "a" is a symlink
pointing back at itself, `sys_open` does not return the recoverable
error the claim asserts — it panics, halting the system. -/
theorem sys_open_loop_panics :
    (sys_open true "a" 0 true [none] loopFS).1 =
      SysRes.panicked "symbolic link exceeds 16 links " := by decide

/-- C1 as amended: `open` (without `O_CREATE`) on a resolvable symlink
chain of depth `d ≤ 15` returns a fresh descriptor whose open-file
object holds the terminal non-symlink inode; a chain of depth exactly
16 (hence also any loop, which admits no finite depth at all) makes
`sys_open` panic — an unrecoverable halt, not a returned
`ChainTooLong` error. -/
theorem sys_open_chain_bounded (path : String) (omode : Nat)
    (tbl : List (Option OFile)) (fs : FS) (ipn tn d fd : Nat)
    (hcr : omode &&& O_CREATE = 0)
    (hres : namei fs path = some ipn)
    (hdir : ¬((fs.inodes ipn).type = IType.T_DIR ∧ omode ≠ O_RDONLY))
    (hchain : Chain fs ipn d tn)
    (hfd : fdalloc tbl = some fd) :
    (d ≤ 15 → ∃ evs, sys_open true path omode true tbl fs =
      (SysRes.ret (fd : Int), fs,
        tbl.set fd (some ⟨FType.FD_INODE, tn, 0, omode &&& O_WRONLY == 0,
          (omode &&& O_WRONLY != 0) || (omode &&& O_RDWR != 0)⟩), evs)) ∧
    (d = 16 → ∃ evs, sys_open true path omode true tbl fs =
      (SysRes.panicked "symbolic link exceeds 16 links ", fs, tbl, evs)) := by
  have hip : sys_openIp path omode fs =
      (CreateRes.ok ipn, fs, [Ev.argfetch, Ev.ilockE ipn]) := by
    simp [sys_openIp, hcr, hres, hdir]
  constructor
  · intro hd15
    obtain ⟨evs2, hloop⟩ := openSymLoop_ok fs hchain 16 (by omega)
    exact ⟨[Ev.argfetch, Ev.ilockE ipn] ++ evs2 ++ [Ev.iunlockE tn],
      by simp [sys_open, hip, hloop, hfd]⟩
  · intro hd16
    subst hd16
    have hloop := openSymLoop_tooLong fs 16 hchain (le_refl _)
    cases hl : openSymLoop fs ipn 16 with
    | mk r evs2 =>
      rw [hl] at hloop
      simp only at hloop
      subst hloop
      exact ⟨[Ev.argfetch, Ev.ilockE ipn] ++ evs2, by simp [sys_open, hip, hl]⟩

/-- C1 witness: on `chainFS`, "a" is a depth-1 chain (symlink inode 2
to plain file inode 3); opening it read-only lands descriptor 0 on
inode 3. -/
theorem sys_open_chain_bounded_witness :
    ∃ evs, sys_open true "a" 0 true [none] chainFS =
      (SysRes.ret 0, chainFS,
        [some ⟨FType.FD_INODE, 3, 0, true, false⟩], evs) :=
  (sys_open_chain_bounded "a" 0 [none] chainFS 2 3 1 0 (by decide) rfl
    (by decide)
    (Chain.step 2 3 0 3 rfl rfl (Chain.done 3 rfl))
    (by decide)).1 (by decide)

/-- C8 counterexample: on the symlink loop of `loopFS`, `sys_readlink`
does not return an error — it panics, halting the system, contrary to
the claim that an over-long chain never crashes. -/
theorem sys_readlink_loop_panics :
    (sys_readlink true "a" "" 10 loopFS).1 =
      SysRes.panicked "symbolic link exceeds 16 links " := by decide

/-- C8 as amended: `readlink` on a path whose final inode is not a
symlink returns -1 (`NotASymlink`); on a symlink whose target does not
resolve it returns -2 (`BrokenLink`), a value distinct from -1; but an
over-long (16-hop all-symlink) chain makes it panic rather than return
an error. -/
theorem sys_readlink_error_values (path buf : String) (bufsiz : Nat)
    (fs : FS) (ipn : Nat)
    (hres : namei fs path = some ipn) :
    ((fs.inodes ipn).symlnk = false →
      sys_readlink true path buf bufsiz fs =
        (SysRes.ret (-1), buf,
          [Ev.argfetch, Ev.ilockE ipn, Ev.iunlockE ipn])) ∧
    ((fs.inodes ipn).symlnk = true →
      namei fs (fs.inodes ipn).addrs = none →
      sys_readlink true path buf bufsiz fs =
        (SysRes.ret (-2), buf,
          [Ev.argfetch, Ev.ilockE ipn, Ev.iunlockE ipn])) ∧
    ((fs.inodes ipn).symlnk = true → symChainAll fs ipn 16 = true →
      (sys_readlink true path buf bufsiz fs).1 =
        SysRes.panicked "symbolic link exceeds 16 links ") := by
  refine ⟨?_, ?_, ?_⟩
  · intro hs
    simp [sys_readlink, hres, hs]
  · intro hs hb
    have h16 : readlinkLoop fs ipn 16 = (RLRes.broken, [Ev.iunlockE ipn]) := by
      rw [show (16 : Nat) = 15 + 1 from rfl]
      simp only [readlinkLoop, namei] at *
      rw [hb]
    simp [sys_readlink, hres, hs, h16]
  · intro hs hchain
    have hloop := readlinkLoop_tooLong fs 16 ipn hchain
    cases hl : readlinkLoop fs ipn 16 with
    | mk r evs =>
      rw [hl] at hloop
      simp only at hloop
      subst hloop
      simp [sys_readlink, hres, hs, hl]

/-- C8 witness: in `unlinkFS`, "x" names a plain non-symlink file, so
`readlink` returns -1; in `brokenFS`, "s" names a symlink whose target
"gone" resolves to nothing, so `readlink` returns the distinct value
-2. -/
theorem sys_readlink_error_values_witness :
    sys_readlink true "x" "" 10 unlinkFS =
      (SysRes.ret (-1), "", [Ev.argfetch, Ev.ilockE 4, Ev.iunlockE 4]) ∧
    sys_readlink true "s" "" 10 brokenFS =
      (SysRes.ret (-2), "", [Ev.argfetch, Ev.ilockE 1, Ev.iunlockE 1]) :=
  ⟨(sys_readlink_error_values "x" "" 10 unlinkFS 4 rfl).1 rfl,
   (sys_readlink_error_values "s" "" 10 brokenFS 1 rfl).2.1 rfl rfl⟩

/-- C6 counterexample: a symlink is successfully created at "p" with
the target "t", no entry existed at "p", and yet `readlink("p")` does
not return "t" — the target does not resolve, so the read reports the
broken-link error -2. -/
theorem symlink_readlink_broken_target :
    (sys_symlink true "t" "p" true fs6).1 = SysRes.ret 0 ∧
    (sys_readlink true "p" "" 10
        ((sys_symlink true "t" "p" true fs6).2.1)).1 = SysRes.ret (-2) := by
  exact ⟨by decide, by decide⟩

/-- C6 as amended: for a valid `(target, path)` pair — no entry at
`path`, the target within the inline capacity, resolving to an
existing *non-symlink* inode, and a large enough read buffer —
`create_symlink(target, path)` followed by `read_target(path)` returns
exactly `target`. -/
theorem symlink_readlink_roundtrip (target path name buf : String)
    (bufsiz : Nat) (fs : FS) (dpn tn : Nat)
    (hpar : nameiparent fs path = some (dpn, name))
    (hlook : dirlookup (fs.inodes dpn) name = none)
    (hne : dpn ≠ fs.nextInum)
    (hlen : strlen target < MAX_LNK_NAME)
    (htp : target ≠ path)
    (hrt : fs.resolve target = some tn)
    (htn1 : tn ≠ fs.nextInum) (htn2 : tn ≠ dpn)
    (hsym : (fs.inodes tn).symlnk = false)
    (hbuf : strlen target < bufsiz) :
    (sys_symlink true target path true fs).1 = SysRes.ret 0 ∧
    (sys_readlink true path buf bufsiz
        ((sys_symlink true target path true fs).2.1)).1 =
      SysRes.ret (strlen target : Int) ∧
    (sys_readlink true path buf bufsiz
        ((sys_symlink true target path true fs).2.1)).2.1 = target := by
  obtain ⟨h1, h2, h3, h4, h5, h6, h7, h8⟩ :=
    sys_symlink_ok target path name fs dpn hpar hlook hne (le_of_lt hlen)
  have haddrs :
      (((sys_symlink true target path true fs).2.1).inodes fs.nextInum).addrs =
        target := by
    rw [h3]
    exact strTake_self target _ (by omega)
  have hrt2 : ((sys_symlink true target path true fs).2.1).resolve target =
      some tn := by rw [h7 target htp]; exact hrt
  have hstn :
      (((sys_symlink true target path true fs).2.1).inodes tn).symlnk = false := by
    rw [h5 tn htn1 htn2]; exact hsym
  have hloop : readlinkLoop ((sys_symlink true target path true fs).2.1)
      fs.nextInum 16 = (RLRes.last fs.nextInum, []) := by
    rw [show (16 : Nat) = 15 + 1 from rfl, readlinkLoop, namei, haddrs, hrt2]
    simp [hstn]
  have hcopy : safestrcpy buf (strTake target (MAX_LNK_NAME - 1)) bufsiz =
      target := by
    rw [safestrcpy, if_neg (by omega : ¬ bufsiz = 0),
        strTake_self target (MAX_LNK_NAME - 1) (by omega)]
    exact strTake_self target (bufsiz - 1) (by omega)
  refine ⟨h1, ?_, ?_⟩ <;>
    simp [sys_readlink, namei, h6, h3, hloop, hcopy]

/-- C6 witness: in `roundFS` the target "f" of the new symlink at "p"
resolves to the plain file inode 2; after `create_symlink("f", "p")`,
`readlink("p")` returns exactly "f". -/
theorem symlink_readlink_roundtrip_witness :
    (sys_symlink true "f" "p" true roundFS).1 = SysRes.ret 0 ∧
    (sys_readlink true "p" "" 10
        ((sys_symlink true "f" "p" true roundFS).2.1)).1 = SysRes.ret 1 ∧
    (sys_readlink true "p" "" 10
        ((sys_symlink true "f" "p" true roundFS).2.1)).2.1 = "f" :=
  symlink_readlink_roundtrip "f" "p" "p" "" 10 roundFS 1 2 rfl rfl
    (by decide) (by decide) (by decide) rfl (by decide) (by decide) rfl
    (by decide)

/-- C7 counterexample: on a successful `sys_symlink` run the
symlink-flag/target store (`setsymE`) does occur, but not within the
transaction bracket — the creation commits first and the inline-target
store happens outside the transaction, contrary to the claim that both
happen inside one transaction. -/
theorem sys_symlink_store_outside_txn :
    (sys_symlink true "t" "p" true fs6).1 = SysRes.ret 0 ∧
    ((sys_symlink true "t" "p" true fs6).2.2.2).contains (Ev.setsymE 5) = true ∧
    withinTxn (sys_symlink true "t" "p" true fs6).2.2.2 (Ev.setsymE 5) = false := by
  exact ⟨by decide, by decide, by decide⟩

/-- C7 as amended: `create_symlink(target, path)` creates the
plain-file inode inside one transaction, but stores `target` into the
inline buffer, sets `symlink_flag` and zeroes `size` only after the
transaction has committed (the trace shows `setsymE` after `tcommit`,
and the inode is never re-persisted); the resulting open-file object
is readable and not writable. -/
theorem sys_symlink_effects (target path name : String) (fs : FS) (dpn : Nat)
    (hpar : nameiparent fs path = some (dpn, name))
    (hlook : dirlookup (fs.inodes dpn) name = none)
    (hne : dpn ≠ fs.nextInum)
    (hlen : strlen target ≤ MAX_LNK_NAME) :
    (sys_symlink true target path true fs).1 = SysRes.ret 0 ∧
    ((sys_symlink true target path true fs).2.1.inodes fs.nextInum).symlnk =
      true ∧
    ((sys_symlink true target path true fs).2.1.inodes fs.nextInum).addrs =
      strTake target (MAX_LNK_NAME - 1) ∧
    ((sys_symlink true target path true fs).2.1.inodes fs.nextInum).size = 0 ∧
    (sys_symlink true target path true fs).2.2.1 =
      some ⟨FType.FD_SYMLNK, fs.nextInum, 0, true, false⟩ ∧
    (sys_symlink true target path true fs).2.2.2 =
      [Ev.argfetch, Ev.tbegin, Ev.ilockE dpn, Ev.ilockE fs.nextInum,
       Ev.iupdateE fs.nextInum, Ev.dirwriteE dpn name fs.nextInum,
       Ev.iunlockE dpn, Ev.iputE dpn, Ev.tcommit, Ev.setsymE fs.nextInum,
       Ev.iunlockE fs.nextInum] := by
  obtain ⟨h1, h2, h3, h4, h5, h6, h7, h8⟩ :=
    sys_symlink_ok target path name fs dpn hpar hlook hne hlen
  exact ⟨h1, by rw [h3], by rw [h3], by rw [h3], h2, h8⟩

/-- C7 witness: creating the symlink "t" at "p" in `fs6`. -/
theorem sys_symlink_effects_witness :
    (sys_symlink true "t" "p" true fs6).1 = SysRes.ret 0 ∧
    ((sys_symlink true "t" "p" true fs6).2.1.inodes 5).symlnk = true ∧
    ((sys_symlink true "t" "p" true fs6).2.1.inodes 5).addrs =
      strTake "t" (MAX_LNK_NAME - 1) ∧
    ((sys_symlink true "t" "p" true fs6).2.1.inodes 5).size = 0 ∧
    (sys_symlink true "t" "p" true fs6).2.2.1 =
      some ⟨FType.FD_SYMLNK, 5, 0, true, false⟩ ∧
    (sys_symlink true "t" "p" true fs6).2.2.2 =
      [Ev.argfetch, Ev.tbegin, Ev.ilockE 1, Ev.ilockE 5, Ev.iupdateE 5,
       Ev.dirwriteE 1 "f" 5, Ev.iunlockE 1, Ev.iputE 1, Ev.tcommit,
       Ev.setsymE 5, Ev.iunlockE 5] :=
  sys_symlink_effects "t" "p" "f" fs6 1 rfl rfl (by decide) (by decide)

/-- C2 counterexample: `sys_mkdir` opens its transaction *before* its
entry validation: on a run whose argument fetch fails, the trace is
begin, fetch, commit — the begin precedes the argument fetch, contrary
to the claim that every transaction-bracketed operation opens its
transaction after its entry validation. -/
theorem sys_mkdir_opens_before_validation :
    (sys_mkdir false "x" fs6).2.2 = [Ev.tbegin, Ev.argfetch, Ev.tcommit] ∧
    txnAfterValidation (sys_mkdir false "x" fs6).2.2 = false := by
  exact ⟨by decide, by decide⟩

/-- C2 as amended: every transaction-bracketed operation (link, unlink,
create-backed open, mkdir, mknod, symlink, and the three tag
operations) that returns — i.e. does not halt in a panic — has a
balanced bracket: the transaction events of its trace are exactly one
begin followed by one commit, or none at all when the operation fails
before the transaction is opened; no returning path leaves the
transaction open or commits twice.  (The "after its entry validation"
part of the original claim fails for mkdir and mknod, which open the
transaction before fetching their arguments — see the
counterexample.) -/
theorem txn_bracket_once :
    (∀ a op np fs r, (sys_link a op np fs).1 = SysRes.ret r →
      txnOk (sys_link a op np fs).2.2 = true) ∧
    (∀ a p fs r, (sys_unlink a p fs).1 = SysRes.ret r →
      txnOk (sys_unlink a p fs).2.2 = true) ∧
    (∀ a p o fo tbl fs r, (sys_open a p o fo tbl fs).1 = SysRes.ret r →
      txnOk (sys_open a p o fo tbl fs).2.2.2 = true) ∧
    (∀ a p fs r, (sys_mkdir a p fs).1 = SysRes.ret r →
      txnOk (sys_mkdir a p fs).2.2 = true) ∧
    (∀ a p ma mi fs r, (sys_mknod a p ma mi fs).1 = SysRes.ret r →
      txnOk (sys_mknod a p ma mi fs).2.2 = true) ∧
    (∀ a t p fo fs r, (sys_symlink a t p fo fs).1 = SysRes.ret r →
      txnOk (sys_symlink a t p fo fs).2.2.2 = true) ∧
    (∀ a r s, (sys_ftag a r).1 = SysRes.ret s →
      txnOk (sys_ftag a r).2 = true) ∧
    (∀ a r s, (sys_funtag a r).1 = SysRes.ret s →
      txnOk (sys_funtag a r).2 = true) ∧
    (∀ a r s, (sys_gettag a r).1 = SysRes.ret s →
      txnOk (sys_gettag a r).2 = true) := by
  refine ⟨?_, ?_, ?_, ?_, ?_, ?_, ?_, ?_, ?_⟩
  · intro a op np fs r _
    exact txnOk_link_aux a op np fs
  · intro a p fs r hret
    rcases txnOk_unlink_aux a p fs with h | ⟨m, hm⟩
    · exact h
    · rw [hm] at hret; simp at hret
  · intro a p o fo tbl fs r hret
    rcases txnOk_open_aux a p o fo tbl fs with h | ⟨m, hm⟩
    · exact h
    · rw [hm] at hret; simp at hret
  · intro a p fs r hret
    rcases txnOk_mkdir_aux a p fs with h | ⟨m, hm⟩
    · exact h
    · rw [hm] at hret; simp at hret
  · intro a p ma mi fs r hret
    rcases txnOk_mknod_aux a p ma mi fs with h | ⟨m, hm⟩
    · exact h
    · rw [hm] at hret; simp at hret
  · intro a t p fo fs r hret
    rcases txnOk_symlink_aux a t p fo fs with h | ⟨m, hm⟩
    · exact h
    · rw [hm] at hret; simp at hret
  · intro a r s _; cases a <;> rfl
  · intro a r s _; cases a <;> rfl
  · intro a r s _; cases a <;> rfl

/-- C2 witness: one successful run of each transaction-bracketed
operation, each with a balanced single begin/commit bracket. -/
theorem txn_bracket_once_witness :
    txnOk (sys_link true "x" "q" unlinkFS).2.2 = true ∧
    txnOk (sys_unlink true "d" unlinkFS).2.2 = true ∧
    txnOk (sys_open true "p" 512 true [none] fs6).2.2.2 = true ∧
    txnOk (sys_mkdir true "p" fs6).2.2 = true ∧
    txnOk (sys_mknod true "p" 1 2 fs6).2.2 = true ∧
    txnOk (sys_symlink true "t" "p" true fs6).2.2.2 = true ∧
    txnOk (sys_ftag true 0).2 = true ∧
    txnOk (sys_funtag true 0).2 = true ∧
    txnOk (sys_gettag true 0).2 = true := by
  obtain ⟨h1, h2, h3, h4, h5, h6, h7, h8, h9⟩ := txn_bracket_once
  exact ⟨h1 true "x" "q" unlinkFS 0 (by decide),
    h2 true "d" unlinkFS 0 (by decide),
    h3 true "p" 512 true [none] fs6 0 (by decide),
    h4 true "p" fs6 0 (by decide),
    h5 true "p" 1 2 fs6 0 (by decide),
    h6 true "t" "p" true fs6 0 (by decide),
    h7 true 0 0 (by decide), h8 true 0 0 (by decide),
    h9 true 0 0 (by decide)⟩

end SysFile
